import Mathlib

/-!
A shallow embedding of the `rawwr` tree-walking interpreter (scanner, parser,
resolver, interpreter over an environment chain) together with proofs about
the behaviours its specification describes.

Modelling conventions, used consistently below:

* Rust `f64` is modelled as `ℚ`; no verified property depends on floating
  point rounding, NaN, or formatting.
* Rust `HashMap<String, _>` is modelled as an association list whose `insert`
  replaces an existing binding for the key.
* Rust `Rc<RefCell<Environment>>` sharing is modelled with a heap: a list of
  frames addressed by index, threaded through an interpreter state.  `Rc`
  pointer identity of AST nodes (the key of the resolver side table) is
  modelled by a `Nat` node id carried by the four expression forms the
  resolver records; function and instance values are likewise heap ids.
* A Rust panic (a failed `unwrap`, an out-of-bounds index, an explicit
  `panic!` call) is modelled as the `none` outcome of an `Option`-layered
  state monad: the program ends with no result and no observable state,
  matching a process abort.
* Loops that are not structurally recursive in the source (scanner loops,
  the parser, `while`, recursion through calls) take explicit fuel; fuel
  exhaustion is also mapped to `none`.  Every theorem below either supplies
  enough fuel for the execution it talks about or quantifies over the fuel.
-/

namespace Rawwr

/-- Token kinds, from `token.rs` (`enum TokenType`). -/
inductive TokenType where
  | leftParen | rightParen | leftBrace | rightBrace
  | comma | dot | minus | plus | semicolon | slash | star
  | bang | bangEqual | equal | equalEqual
  | greater | greaterEqual | less | lessEqual
  | identifier | stringLiteral | numberLiteral
  | andKw | classKw | elseKw | falseKw | funKw | forKw | ifKw | nilKw
  | orKw | printKw | returnKw | superKw | thisKw | trueKw | varKw | whileKw
  | eof
deriving DecidableEq, Repr

/-- Runtime values, from `object.rs` (`enum Object`).  `func`, `instance_`
and `native` carry heap ids standing for the `Rc` pointers; `class_` carries
the id of a `ClassVal` in the class heap. -/
inductive Object where
  | num (n : ℚ)
  | str (s : String)
  | bool (b : Bool)
  | func (id : Nat)
  | class_ (id : Nat)
  | instance_ (id : Nat)
  | nil
  | arithmeticError
  | divByZeroError
  | native (id : Nat)
deriving DecidableEq, Repr

/-- A class value, from `class.rs` (`struct Class`).  `methods` maps a
method name to the method's `Object` value (always an `Object.func` as
built by the interpreter); `superclass` is the id of the superclass in the
interpreter state's class heap (`Rc<Class>` sharing). -/
structure ClassVal where
  name : String
  methods : List (String × Object)
  superclass : Option Nat
deriving DecidableEq, Repr

/-- A token, from `token.rs` (`struct Token`). -/
structure Token where
  token_type : TokenType
  lexeme : String
  literal : Option Object
  line : Int
deriving DecidableEq, Repr

/-- The failure-and-return channel, from `error.rs` (`enum LoxResult`). -/
inductive LoxResult where
  | parseError (token : Token) (message : String)
  | runtimeError (token : Token) (message : String)
  | error (line : Int) (message : String)
  | returnValue (value : Object)
  | systemError (message : String)
deriving DecidableEq, Repr

instance [DecidableEq ε] [DecidableEq α] : DecidableEq (Except ε α) := fun x y =>
  match x, y with
  | .ok a, .ok b =>
    if h : a = b then isTrue (by rw [h]) else isFalse (by simp [h])
  | .error a, .error b =>
    if h : a = b then isTrue (by rw [h]) else isFalse (by simp [h])
  | .ok _, .error _ => isFalse (by simp)
  | .error _, .ok _ => isFalse (by simp)

/-- Generic state monad with a `LoxResult` error channel and an `Option`
layer whose `none` models a Rust panic / process abort. -/
def LoxM (σ : Type) (α : Type) : Type := σ → Option (Except LoxResult α × σ)

/-- The `pure` of `LoxM`. -/
def LoxM.pureF (a : α) : LoxM σ α := fun s => some (.ok a, s)

/-- The `bind` of `LoxM`: a panic or an error short-circuits. -/
def LoxM.bindF (x : LoxM σ α) (f : α → LoxM σ β) : LoxM σ β := fun s =>
  match x s with
  | none => none
  | some (.error e, s') => some (.error e, s')
  | some (.ok a, s') => f a s'

instance : Monad (LoxM σ) where
  pure := LoxM.pureF
  bind := LoxM.bindF

/-- Read the state. -/
def getS : LoxM σ σ := fun s => some (.ok s, s)

/-- Replace the state. -/
def setS (s : σ) : LoxM σ Unit := fun _ => some (.ok (), s)

/-- Update the state. -/
def modifyS (f : σ → σ) : LoxM σ Unit := fun s => some (.ok (), f s)

/-- Raise a `LoxResult` (an `Err` return in the source). -/
def throwLox (e : LoxResult) : LoxM σ α := fun s => some (.error e, s)

/-- A Rust panic: no result, no further state. -/
def modelPanic : LoxM σ α := fun _ => none

/-- Lift an `Option` whose `none` is a panic (`.unwrap()` in the source). -/
def liftUnwrap : Option α → LoxM σ α
  | some a => pure a
  | none => modelPanic

/-- Catch: run `x`; hand its `LoxResult` outcome (ok or error) to `k`.
Models a Rust `match` on a `Result` value. -/
def tryLox (x : LoxM σ α) (k : Except LoxResult α → LoxM σ β) : LoxM σ β :=
  fun s =>
    match x s with
    | none => none
    | some (r, s') => k r s'

/-- Association-list insert with replacement: the model of
`HashMap::insert`. -/
def alistInsert [DecidableEq κ] (k : κ) (v : α) :
    List (κ × α) → List (κ × α)
  | [] => [(k, v)]
  | (k', v') :: rest =>
      if k' = k then (k, v) :: rest else (k', v') :: alistInsert k v rest

/-- Association-list lookup: the model of `HashMap::get`. -/
def alistGet [DecidableEq κ] (k : κ) : List (κ × α) → Option α
  | [] => none
  | (k', v') :: rest => if k' = k then some v' else alistGet k rest

/-- One environment frame, from `environment.rs` (`struct Environment`):
a value table plus an optional enclosing frame (an `Rc` pointer, here a
heap id). -/
structure Frame where
  values : List (String × Object)
  enclosing : Option Nat
deriving DecidableEq, Repr

/-- The environment heap: `Rc<RefCell<Environment>>` cells addressed by
index. -/
abbrev EnvHeap : Type := List Frame

namespace Environment

/-- `Environment::define`: insert into the frame `id`, shadowing any
existing entry.  A dangling id leaves the heap unchanged (unreachable for
states built by the interpreter). -/
def define (h : EnvHeap) (id : Nat) (name : String) (v : Object) : EnvHeap :=
  match h.get? id with
  | none => h
  | some f => h.set id { f with values := alistInsert name v f.values }

/-- `Environment::get_at(distance, name)`, from `environment.rs` lines
36–43.  The source recurses with `self.get_at(distance - 1, name)` — on the
same frame, not on `self.enclosing` (the enclosing call is commented out
there) — so the frame consulted is independent of `distance`.  `none`
models the `unwrap` panic when the name (or frame) is absent. -/
def get_at (h : EnvHeap) (id : Nat) : Nat → String → Option Object
  | 0, name => (h.get? id).bind fun f => alistGet name f.values
  | d + 1, name => get_at h id d name

/-- The frame reached from `id` by following exactly `d` enclosing links
(0 = the frame itself).  This is the spec's wording of what `get_at`
indexes: "indexes `distance` frames up the chain (0 = current)". -/
def frame_at (h : EnvHeap) (id : Nat) : Nat → Option Nat
  | 0 => some id
  | d + 1 => (h.get? id).bind fun f => f.enclosing.bind fun p => frame_at h p d

/-- `Environment::get`: walk the chain; an undefined name at the root is a
runtime error.  `fuel` bounds the chain length (the chain is acyclic by
construction; a cyclic chain would loop forever in the source, `none`
here). -/
def get (h : EnvHeap) : Nat → Nat → Token → Option (Except LoxResult Object)
  | 0, _, _ => none
  | fuel + 1, id, name =>
    match h.get? id with
    | none => none
    | some f =>
      match alistGet name.lexeme f.values with
      | some v => some (.ok v)
      | none =>
        match f.enclosing with
        | some p => get h fuel p name
        | none =>
          some (.error (.runtimeError name
            ("GET: Undefined variable '" ++ name.lexeme ++ "'.")))

/-- `Environment::assign`: walk the chain and mutate the first frame
containing the name, else an undefined-variable error. -/
def assign (h : EnvHeap) : Nat → Nat → Token → Object →
    Option (Except LoxResult EnvHeap)
  | 0, _, _, _ => none
  | fuel + 1, id, name, v =>
    match h.get? id with
    | none => none
    | some f =>
      match alistGet name.lexeme f.values with
      | some _ => some (.ok (h.set id
          { f with values := alistInsert name.lexeme v f.values }))
      | none =>
        match f.enclosing with
        | some p => assign h fuel p name v
        | none =>
          some (.error (.runtimeError name
            ("ASSIGN: Undefined variable '" ++ name.lexeme ++ "'.")))

/-- Modelled from the spec: `assign_at(distance, name_token, value)` —
"analogous mutation" to `get_at`, mutating the frame `distance` links up
the chain.  The interpreter calls `Environment::assign_at`, but no
definition of it appears in `src/environment.rs`. -/
def assign_at (h : EnvHeap) (id : Nat) : Nat → String → Object → Option EnvHeap
  | 0, name, v =>
    (h.get? id).map fun f =>
      h.set id { f with values := alistInsert name v f.values }
  | d + 1, name, v =>
    (h.get? id).bind fun f => f.enclosing.bind fun p => assign_at h p d name v

end Environment

namespace Object

/-- `impl Mul for Object` from `object.rs`. -/
def mul : Object → Object → Object
  | num l, num r => num (l * r)
  | _, _ => arithmeticError

/-- `impl Div for Object` from `object.rs`: division by zero is its own
error value. -/
def div : Object → Object → Object
  | num l, num r => if r = 0 then divByZeroError else num (l / r)
  | _, _ => arithmeticError

/-- `impl Sub for Object` from `object.rs`. -/
def sub : Object → Object → Object
  | num l, num r => num (l - r)
  | _, _ => arithmeticError

/-- `impl Add for Object` from `object.rs`: numeric addition or string
concatenation. -/
def add : Object → Object → Object
  | num l, num r => num (l + r)
  | str l, str r => str (l ++ r)
  | _, _ => arithmeticError

/-- `impl PartialOrd for Object::partial_cmp` from `object.rs` lines
88–97, arm for arm: `(Nil, Nil)` is `Equal`; `Nil` against anything else
is `None`; two `Num`s compare numerically; every other pair is `None`. -/
def pcmp : Object → Object → Option Ordering
  | nil, nil => some .eq
  | nil, _ => none
  | _, nil => none
  | num l, num r =>
      if l < r then some .lt else if l = r then some .eq else some .gt
  | _, _ => none

/-- Rust's default `PartialOrd::lt`: `partial_cmp == Some(Less)`. -/
def olt (a b : Object) : Bool := pcmp a b = some .lt

/-- Rust's default `PartialOrd::le`: `Some(Less | Equal)`. -/
def ole (a b : Object) : Bool := pcmp a b = some .lt ∨ pcmp a b = some .eq

/-- Rust's default `PartialOrd::gt`: `Some(Greater)`. -/
def ogt (a b : Object) : Bool := pcmp a b = some .gt

/-- Rust's default `PartialOrd::ge`: `Some(Greater | Equal)`. -/
def oge (a b : Object) : Bool := pcmp a b = some .gt ∨ pcmp a b = some .eq

/-- Whether the value is a `Num`. -/
def isNum : Object → Bool
  | num _ => true
  | _ => false

end Object

/-- Expressions, from `expr.rs` plus the `Set`/`Super`/`This` variants used
by `parser.rs`, `resolver.rs` and `interpreter.rs` (the committed `expr.rs`
iteration predates them; their fields are read off those uses).  The `id`
on `assign`/`super_`/`this_`/`variable_` models the `Rc` pointer identity
the resolver keys its side table on. -/
inductive Expr where
  | assign (id : Nat) (name : Token) (value : Expr)
  | binary (left : Expr) (operator : Token) (right : Expr)
  | call (callee : Expr) (paren : Token) (arguments : List Expr)
  | get (object : Expr) (name : Token)
  | grouping (expression : Expr)
  | literal (value : Option Object)
  | logical (left : Expr) (operator : Token) (right : Expr)
  | set (object : Expr) (name : Token) (value : Expr)
  | super_ (id : Nat) (keyword : Token) (method : Token)
  | this_ (id : Nat) (keyword : Token)
  | unary (operator : Token) (right : Expr)
  | variable_ (id : Nat) (name : Token)
deriving Repr

/-- Statements, from `stmt.rs` plus the `Class` variant used by
`parser.rs`, `resolver.rs` and `interpreter.rs` (the committed `stmt.rs`
iteration lacks it; `superclass` follows the resolver/interpreter shape,
and the committed parser never produces one). -/
inductive Stmt where
  | block (statements : List Stmt)
  | class_ (name : Token) (superclass : Option Expr) (methods : List Stmt)
  | expression (expression : Expr)
  | function (name : Token) (params : List Token) (body : List Stmt)
  | if_ (condition : Expr) (then_branch : Stmt) (else_branch : Option Stmt)
  | print (expression : Expr)
  | return_ (keyword : Token) (value : Option Expr)
  | var (name : Token) (initializer : Option Expr)
  | while_ (condition : Expr) (body : Stmt)
deriving Repr

/-- The scanner's failure value.  `error.rs` as committed does not define
`ScannerError`; its shape is read off every use in `scanner.rs`: a
`Default` placeholder and an `Error { line, message }` case, one slot —
not a list. -/
inductive ScannerError where
  | default
  | error (line : Int) (message : String)
deriving DecidableEq, Repr

/-- `utils.rs::is_digit`. -/
def is_digit (c : Char) : Bool := decide ('0' ≤ c ∧ c ≤ '9')

/-- `utils.rs::is_alpha`. -/
def is_alpha (c : Char) : Bool :=
  decide (('a' ≤ c ∧ c ≤ 'z') ∨ ('A' ≤ c ∧ c ≤ 'Z')) || c = '_'

/-- `utils.rs::is_alphanumeric`. -/
def is_alphanumeric (c : Char) : Bool := is_alpha c || is_digit c

/-- Scanner state, from `scanner.rs` (`struct Scanner`); the keyword table
is folded into `keywordLookup` below. -/
structure SState where
  error : ScannerError
  source_code : List Char
  tokens : List Token
  current : Nat
  start : Nat
  line : Int
deriving Repr

/-- Scanner computations: state plus the panic layer (`none` = Rust
panic). -/
def SM (α : Type) : Type := SState → Option (α × SState)

instance : Monad SM where
  pure a := fun s => some (a, s)
  bind x f := fun s =>
    match x s with
    | none => none
    | some (a, s') => f a s'

/-- Read the scanner state. -/
def sGet : SM SState := fun s => some (s, s)

/-- Update the scanner state. -/
def sModify (f : SState → SState) : SM Unit := fun s => some ((), f s)

/-- A panic inside the scanner. -/
def sPanic : SM α := fun _ => none

namespace Scanner

/-- The keyword table built in `Scanner::new`. -/
def keywordLookup : String → Option TokenType
  | "and" => some .andKw
  | "class" => some .classKw
  | "else" => some .elseKw
  | "false" => some .falseKw
  | "for" => some .forKw
  | "fun" => some .funKw
  | "if" => some .ifKw
  | "nil" => some .nilKw
  | "or" => some .orKw
  | "print" => some .printKw
  | "return" => some .returnKw
  | "super" => some .superKw
  | "this" => some .thisKw
  | "true" => some .trueKw
  | "var" => some .varKw
  | "while" => some .whileKw
  | _ => none

/-- `Scanner::is_at_end`. -/
def is_at_end (s : SState) : Bool := s.source_code.length ≤ s.current

/-- `Scanner::advance`: `chars().nth(current).unwrap()` — panics past the
end — then increments `current`. -/
def advance : SM Char := fun s =>
  match s.source_code.get? s.current with
  | none => none
  | some c => some (c, { s with current := s.current + 1 })

/-- The slice `source_code[start..current]`. -/
def lexemeOf (s : SState) : List Char :=
  (s.source_code.drop s.start).take (s.current - s.start)

/-- `Scanner::add_token`: push a token for the current lexeme (empty for
`EOF`). -/
def add_token (token_type : TokenType) (literal : Option Object) : SM Unit :=
  sModify fun s =>
    let lexeme := if token_type = .eof then "" else String.mk (lexemeOf s)
    { s with tokens := s.tokens ++ [⟨token_type, lexeme, literal, s.line⟩] }

/-- `Scanner::add_token_single`. -/
def add_token_single (token_type : TokenType) : SM Unit :=
  add_token token_type none

/-- `Scanner::expect`: conditionally consume an expected character. -/
def expect (expected : Char) : SM Bool := fun s =>
  if is_at_end s then some (false, s)
  else
    match s.source_code.get? s.current with
    | none => none
    | some c =>
      if c ≠ expected then some (false, s)
      else some (true, { s with current := s.current + 1 })

/-- `Scanner::peek`: the current character, `'\0'` at the end. -/
def peek : SM Char := fun s =>
  if is_at_end s then some ('\x00', s)
  else
    match s.source_code.get? s.current with
    | none => none
    | some c => some (c, s)

/-- `Scanner::peek_next`. -/
def peek_next : SM Char := fun s =>
  if s.source_code.length ≤ s.current + 1 then some ('\x00', s)
  else
    match s.source_code.get? (s.current + 1) with
    | none => none
    | some c => some (c, s)

/-- `Scanner::new_line`. -/
def new_line : SM Unit := sModify fun s => { s with line := s.line + 1 }

/-- The `while` loop of `Scanner::string`. -/
def stringLoop : Nat → SM Unit
  | 0 => sPanic
  | fuel + 1 => do
    let c ← peek
    let s ← sGet
    if c ≠ '"' ∧ ¬ is_at_end s then
      if c = '\n' then new_line else pure ()
      let _ ← advance
      stringLoop fuel
    else
      pure ()

/-- `Scanner::string`: consume to the closing quote; an unterminated
string sets the error slot and returns. -/
def string : SM Unit := do
  let s0 ← sGet
  stringLoop (s0.source_code.length + 1)
  let s ← sGet
  if is_at_end s then
    sModify fun s => { s with error := .error s.line "Unterminated String." }
  else
    let _ ← advance
    let s ← sGet
    let literal := String.mk
      ((s.source_code.drop (s.start + 1)).take (s.current - 1 - (s.start + 1)))
    add_token .stringLiteral (some (.str literal))

/-- Fold a run of decimal digits onto an accumulator. -/
def digitsVal (l : List Char) : Nat :=
  l.foldl (fun a c => a * 10 + (c.toNat - 48)) 0

/-- The `f64` parse in `Scanner::number`, on the digit/`.`/digit lexeme
shapes the scanner produces (`f64` modelled as `ℚ`). -/
def parseNumLit (l : List Char) : ℚ :=
  let intPart := l.takeWhile (fun c => c ≠ '.')
  let rest := l.dropWhile (fun c => c ≠ '.')
  match rest with
  | [] => (digitsVal intPart : ℚ)
  | _ :: frac =>
      (digitsVal intPart : ℚ) + (digitsVal frac : ℚ) / ((10 : ℚ) ^ frac.length)

/-- A `while is_digit(peek) advance` loop. -/
def digitLoop : Nat → SM Unit
  | 0 => sPanic
  | fuel + 1 => do
    let c ← peek
    if is_digit c then
      let _ ← advance
      digitLoop fuel
    else
      pure ()

/-- `Scanner::number`: an integer part, optionally a `.` followed by a
fraction part, parsed into the literal. -/
def number : SM Unit := do
  let s0 ← sGet
  digitLoop (s0.source_code.length + 1)
  let c ← peek
  let c2 ← peek_next
  if c = '.' ∧ is_digit c2 then
    let _ ← advance
    let s1 ← sGet
    digitLoop (s1.source_code.length + 1)
  let s ← sGet
  add_token .numberLiteral (some (.num (parseNumLit (lexemeOf s))))

/-- The `while is_alphanumeric(peek) advance` loop of
`Scanner::identifier`. -/
def identLoop : Nat → SM Unit
  | 0 => sPanic
  | fuel + 1 => do
    let c ← peek
    if is_alphanumeric c then
      let _ ← advance
      identLoop fuel
    else
      pure ()

/-- `Scanner::identifier`: keywords come from the table, `true`/`false`/
`nil` carry their literal values. -/
def identifier : SM Unit := do
  let s0 ← sGet
  identLoop (s0.source_code.length + 1)
  let s ← sGet
  let text := String.mk (lexemeOf s)
  let token_type := (keywordLookup text).getD .identifier
  match token_type with
  | .trueKw => add_token .trueKw (some (.bool true))
  | .falseKw => add_token .falseKw (some (.bool false))
  | .nilKw => add_token .nilKw (some .nil)
  | _ => add_token_single token_type

/-- The `//` line-comment loop. -/
def lineCommentLoop : Nat → SM Unit
  | 0 => sPanic
  | fuel + 1 => do
    let c ← peek
    let s ← sGet
    if c ≠ '\n' ∧ ¬ is_at_end s then
      let _ ← advance
      lineCommentLoop fuel
    else
      pure ()

/-- The `/* ... */` loop of `Scanner::scan_token`, as written: it runs
`while peek() != '*' && peek_next() != '/'`, with no end-of-input guard, so
`advance` can panic, and it stops as soon as EITHER the current character
is `*` OR the next one is `/`. -/
def blockCommentLoop : Nat → SM Unit
  | 0 => sPanic
  | fuel + 1 => do
    let c ← peek
    let c2 ← peek_next
    if c ≠ '*' ∧ c2 ≠ '/' then
      let _ ← advance
      blockCommentLoop fuel
    else
      pure ()

/-- `Scanner::scan_token`, branch for branch. -/
def scan_token : SM Unit := do
  let c ← advance
  match c with
  | '(' => add_token_single .leftParen
  | ')' => add_token_single .rightParen
  | '{' => add_token_single .leftBrace
  | '}' => add_token_single .rightBrace
  | ',' => add_token_single .comma
  | '.' => add_token_single .dot
  | '-' => add_token_single .minus
  | '+' => add_token_single .plus
  | ';' => add_token_single .semicolon
  | '*' => add_token_single .star
  | '!' => do
    let m ← expect '='
    if m then add_token_single .bangEqual else add_token_single .bang
  | '=' => do
    let m ← expect '='
    if m then add_token_single .equalEqual else add_token_single .equal
  | '<' => do
    let m ← expect '='
    if m then add_token_single .lessEqual else add_token_single .less
  | '>' => do
    let m ← expect '='
    if m then add_token_single .greaterEqual else add_token_single .greater
  | '/' => do
    let mLine ← expect '/'
    if mLine then
      let s ← sGet
      lineCommentLoop (s.source_code.length + 1)
    else
      let mBlock ← expect '*'
      if mBlock then
        let s ← sGet
        blockCommentLoop (s.source_code.length + 1)
        let _ ← advance
        let _ ← advance
        pure ()
      else
        add_token_single .slash
  | ' ' => pure ()
  | '\t' => pure ()
  | '\r' => pure ()
  | '\n' => new_line
  | '"' => string
  | _ =>
    if is_digit c then number
    else if is_alpha c then identifier
    else sModify fun s =>
      { s with error := .error s.line "Unexpected Character." }

/-- The `while !is_at_end` loop of `Scanner::tokenize`: scan a token, then
return the error if one was set. -/
def tokenizeLoop : Nat → SM (Option ScannerError)
  | 0 => sPanic
  | fuel + 1 => do
    let s ← sGet
    if is_at_end s then
      pure none
    else
      sModify fun s => { s with start := s.current }
      scan_token
      let s ← sGet
      match s.error with
      | .error l m => pure (some (.error l m))
      | .default => tokenizeLoop fuel

/-- `Scanner::tokenize` on a fresh scanner for `source` (as built by
`Scanner::new`): `none` is a panic, `some (Except.error e)` the failure
return, `some (Except.ok tokens)` success. -/
def tokenize (source : String) : Option (Except ScannerError (List Token)) :=
  let init : SState :=
    ⟨.default, source.data, [], 0, 0, 1⟩
  match (tokenizeLoop (source.data.length + 1)) init with
  | none => none
  | some (some e, _) => some (.error e)
  | some (none, s) =>
    match (add_token_single .eof) s with
    | none => none
    | some (_, s') => some (.ok s'.tokens)

end Scanner

/-- Parser state, from `parser.rs` (`struct Parser`).  `next_id` models the
allocator handing out fresh `Rc` pointers for the resolver-keyed expression
nodes. -/
structure PState where
  tokens : List Token
  current : Nat
  had_error : Bool
  next_id : Nat
deriving DecidableEq, Repr

/-- Parser computations. -/
abbrev PM (α : Type) : Type := LoxM PState α

namespace Parser

/-- A fresh node id (a fresh `Rc` allocation). -/
def freshId : PM Nat := fun s =>
  some (.ok s.next_id, { s with next_id := s.next_id + 1 })

/-- `Parser::peek`: `tokens.get(current).unwrap().clone()`. -/
def peek : PM Token := fun s =>
  match s.tokens.get? s.current with
  | none => none
  | some t => some (.ok t, s)

/-- `Parser::is_at_end`. -/
def is_at_end : PM Bool := do
  pure ((← peek).token_type = .eof)

/-- `Parser::previous`: `tokens.get(current - 1).unwrap()`. -/
def previous : PM Token := fun s =>
  match s.tokens.get? (s.current - 1) with
  | none => none
  | some t => some (.ok t, s)

/-- `Parser::advance`. -/
def advance : PM Token := do
  if ¬ (← is_at_end) then
    modifyS fun s => { s with current := s.current + 1 }
  previous

/-- `Parser::check`. -/
def check (token_type : TokenType) : PM Bool := do
  if ← is_at_end then pure false
  else pure ((← peek).token_type = token_type)

/-- `Parser::is_match` over the candidate slice. -/
def is_match : List TokenType → PM Bool
  | [] => pure false
  | t :: rest => do
    if ← check t then
      let _ ← advance
      pure true
    else
      is_match rest

/-- `Parser::error`: record `had_error` and build (not raise) the
`ParseError`. -/
def perror (token : Token) (message : String) : PM LoxResult := do
  modifyS fun s => { s with had_error := true }
  pure (.parseError token message)

/-- `Parser::consume`. -/
def consume (token_type : TokenType) (message : String) : PM Token := do
  if ← check token_type then
    advance
  else do
    let t ← peek
    let e ← perror t message
    throwLox e

/-- The `while` loop of `Parser::synchronize`. -/
def synchronizeLoop : Nat → PM Unit
  | 0 => modelPanic
  | fuel + 1 => do
    if ¬ (← is_at_end) then
      if (← previous).token_type = .semicolon then
        pure ()
      else
        let t ← peek
        match t.token_type with
        | .classKw | .funKw | .varKw | .forKw
        | .ifKw | .whileKw | .printKw | .returnKw => pure ()
        | _ => do
          let _ ← advance
          synchronizeLoop fuel
    else
      pure ()

/-- `Parser::synchronize`: discard tokens to a `;` or a declaration
keyword. -/
def synchronize : PM Unit := do
  let _ ← advance
  let s ← getS
  synchronizeLoop (s.tokens.length + 1)

mutual

/-- `Parser::expression`. -/
def expression : Nat → PM Expr
  | 0 => modelPanic
  | fuel + 1 => assignment fuel

/-- `Parser::declaration`: dispatch on the leading keyword, synchronizing
on error before returning it. -/
def declaration : Nat → PM Stmt
  | 0 => modelPanic
  | fuel + 1 => do
    let result ← tryLox
      (do
        if ← is_match [.classKw] then class_declaration fuel
        else if ← is_match [.funKw] then function fuel "function"
        else if ← is_match [.varKw] then var_declaration fuel
        else statement fuel)
      pure
    match result with
    | .error e => do
      synchronize
      throwLox e
    | .ok stmt => pure stmt

/-- `Parser::class_declaration`, from `parser.rs` lines 136–152: a name,
then directly the `{`-delimited method list.  No superclass clause is
parsed, and the statement built carries none. -/
def class_declaration : Nat → PM Stmt
  | 0 => modelPanic
  | fuel + 1 => do
    let name ← consume .identifier "Expect class name."
    let _ ← consume .leftBrace "Expect '\x7b\x7b' before class body."
    let methods ← classMethodsLoop fuel
    let _ ← consume .rightBrace "Expect '\x7d\x7d' after class body."
    pure (.class_ name none methods)

/-- The method-collecting loop of `Parser::class_declaration`. -/
def classMethodsLoop : Nat → PM (List Stmt)
  | 0 => modelPanic
  | fuel + 1 => do
    if ¬ (← check .rightBrace) ∧ ¬ (← is_at_end) then
      let m ← function fuel "method"
      let rest ← classMethodsLoop fuel
      pure (m :: rest)
    else
      pure []

/-- `Parser::statement`. -/
def statement : Nat → PM Stmt
  | 0 => modelPanic
  | fuel + 1 => do
    if ← is_match [.forKw] then for_statement fuel
    else if ← is_match [.ifKw] then if_statement fuel
    else if ← is_match [.printKw] then print_statement fuel
    else if ← is_match [.returnKw] then return_statement fuel
    else if ← is_match [.whileKw] then while_statement fuel
    else if ← is_match [.leftBrace] then do
      let stmts ← block fuel
      pure (.block stmts)
    else expression_statement fuel

/-- `Parser::for_statement`, including the desugaring into `while`. -/
def for_statement : Nat → PM Stmt
  | 0 => modelPanic
  | fuel + 1 => do
    let _ ← consume .leftParen "Expect '(' after 'for'."
    let initializer ←
      (do
        if ← is_match [.semicolon] then pure (none : Option Stmt)
        else if ← is_match [.varKw] then pure (some (← var_declaration fuel))
        else pure (some (← expression_statement fuel)))
    let condition ←
      (do
        if ¬ (← check .semicolon) then expression fuel
        else pure (.literal (some (.bool true))))
    let _ ← consume .semicolon "Expect ';' after loop condition"
    let increment ←
      (do
        if ¬ (← check .rightParen) then pure (some (← expression fuel))
        else pure (none : Option Expr))
    let _ ← consume .rightParen "Expect ')' after for clauses"
    let body0 ← statement fuel
    let body1 :=
      match increment with
      | some inc => Stmt.block [body0, .expression inc]
      | none => body0
    let body2 := Stmt.while_ condition body1
    let body3 :=
      match initializer with
      | some init => Stmt.block [init, body2]
      | none => body2
    pure body3

/-- `Parser::if_statement`. -/
def if_statement : Nat → PM Stmt
  | 0 => modelPanic
  | fuel + 1 => do
    let _ ← consume .leftParen "Expect '(' after 'if'."
    let condition ← expression fuel
    let _ ← consume .rightParen "Expect ')' after if condition."
    let then_branch ← statement fuel
    let else_branch ←
      (do
        if ← is_match [.elseKw] then pure (some (← statement fuel))
        else pure (none : Option Stmt))
    pure (.if_ condition then_branch else_branch)

/-- `Parser::print_statement`. -/
def print_statement : Nat → PM Stmt
  | 0 => modelPanic
  | fuel + 1 => do
    let value ← expression fuel
    let _ ← consume .semicolon "Expect ';' after value."
    pure (.print value)

/-- `Parser::return_statement`. -/
def return_statement : Nat → PM Stmt
  | 0 => modelPanic
  | fuel + 1 => do
    let keyword ← previous
    let value ←
      (do
        if ¬ (← check .semicolon) then pure (some (← expression fuel))
        else pure (none : Option Expr))
    let _ ← consume .semicolon "Expect ';' after return value."
    pure (.return_ keyword value)

/-- `Parser::var_declaration`. -/
def var_declaration : Nat → PM Stmt
  | 0 => modelPanic
  | fuel + 1 => do
    let name ← consume .identifier "Expect variable name."
    let initializer ←
      (do
        if ← is_match [.equal] then pure (some (← expression fuel))
        else pure (none : Option Expr))
    let _ ← consume .semicolon "Expect ';' after variable declaration."
    pure (.var name initializer)

/-- `Parser::while_statement`. -/
def while_statement : Nat → PM Stmt
  | 0 => modelPanic
  | fuel + 1 => do
    let _ ← consume .leftParen "Expect '(' after 'while'."
    let condition ← expression fuel
    let _ ← consume .rightParen "Expect ')' after condition."
    let body ← statement fuel
    pure (.while_ condition body)

/-- `Parser::expression_statement`. -/
def expression_statement : Nat → PM Stmt
  | 0 => modelPanic
  | fuel + 1 => do
    let e ← expression fuel
    let _ ← consume .semicolon "Expect ';' after expression."
    pure (.expression e)

/-- `Parser::function` (also used for methods). -/
def function : Nat → String → PM Stmt
  | 0, _ => modelPanic
  | fuel + 1, kind => do
    let name ← consume .identifier ("Expect " ++ kind ++ " name.")
    let _ ← consume .leftParen ("Expect '(' after " ++ kind ++ " name.")
    let params ←
      (do
        if ¬ (← check .rightParen) then
          let first ← consume .identifier "Expect parameter name."
          paramsLoop fuel [first]
        else pure ([] : List Token))
    let _ ← consume .rightParen "Expect ')' after parameters."
    let _ ← consume .leftBrace ("Expect '\x7b' before " ++ kind ++ " body.")
    let body ← block fuel
    pure (.function name params body)

/-- The parameter loop of `Parser::function`; `params` accumulates in
order. -/
def paramsLoop : Nat → List Token → PM (List Token)
  | 0, _ => modelPanic
  | fuel + 1, params => do
    if ← is_match [.comma] then
      if params.length ≥ 255 then
        let t ← peek
        let _ ← perror t "You can't have more than 255 parameters."
        pure ()
      let p ← consume .identifier "Expect parameter name."
      paramsLoop fuel (params ++ [p])
    else
      pure params

/-- `Parser::block`. -/
def block : Nat → PM (List Stmt)
  | 0 => modelPanic
  | fuel + 1 => do
    if ¬ (← check .rightBrace) ∧ ¬ (← is_at_end) then
      let s ← declaration fuel
      let rest ← block fuel
      pure (s :: rest)
    else do
      let _ ← consume .rightBrace "Expect '\x7d' after block."
      pure []

/-- `Parser::assignment`: parse a `logic_or`, then rewrite a `Variable` or
`Get` left side into `Assign`/`Set`; any other left side records an
invalid-assignment-target error but is returned unchanged. -/
def assignment : Nat → PM Expr
  | 0 => modelPanic
  | fuel + 1 => do
    let expr ← orExpr fuel
    if ← is_match [.equal] then
      let equals ← previous
      let value ← assignment fuel
      match expr with
      | .variable_ _ name => do
        let id ← freshId
        pure (.assign id name value)
      | .get object name => pure (.set object name value)
      | _ => do
        let _ ← perror equals "Invalid assignment target"
        pure expr
    else
      pure expr

/-- `Parser::or` (named `orExpr` here). -/
def orExpr : Nat → PM Expr
  | 0 => modelPanic
  | fuel + 1 => do
    let e ← andExpr fuel
    orLoop fuel e

/-- The `while is_match(Or)` loop of `Parser::or`. -/
def orLoop : Nat → Expr → PM Expr
  | 0, _ => modelPanic
  | fuel + 1, e => do
    if ← is_match [.orKw] then
      let operator ← previous
      let right ← andExpr fuel
      orLoop fuel (.logical e operator right)
    else
      pure e

/-- `Parser::and` (named `andExpr` here). -/
def andExpr : Nat → PM Expr
  | 0 => modelPanic
  | fuel + 1 => do
    let e ← equality fuel
    andLoop fuel e

/-- The `while is_match(And)` loop of `Parser::and`. -/
def andLoop : Nat → Expr → PM Expr
  | 0, _ => modelPanic
  | fuel + 1, e => do
    if ← is_match [.andKw] then
      let operator ← previous
      let right ← equality fuel
      andLoop fuel (.logical e operator right)
    else
      pure e

/-- `Parser::equality`. -/
def equality : Nat → PM Expr
  | 0 => modelPanic
  | fuel + 1 => do
    let e ← comparison fuel
    equalityLoop fuel e

/-- The loop of `Parser::equality`. -/
def equalityLoop : Nat → Expr → PM Expr
  | 0, _ => modelPanic
  | fuel + 1, e => do
    if ← is_match [.bangEqual, .equalEqual] then
      let operator ← previous
      let right ← comparison fuel
      equalityLoop fuel (.binary e operator right)
    else
      pure e

/-- `Parser::comparison`. -/
def comparison : Nat → PM Expr
  | 0 => modelPanic
  | fuel + 1 => do
    let e ← term fuel
    comparisonLoop fuel e

/-- The loop of `Parser::comparison`. -/
def comparisonLoop : Nat → Expr → PM Expr
  | 0, _ => modelPanic
  | fuel + 1, e => do
    if ← is_match [.greater, .greaterEqual, .less, .lessEqual] then
      let operator ← previous
      let right ← term fuel
      comparisonLoop fuel (.binary e operator right)
    else
      pure e

/-- `Parser::term`. -/
def term : Nat → PM Expr
  | 0 => modelPanic
  | fuel + 1 => do
    let e ← factor fuel
    termLoop fuel e

/-- The loop of `Parser::term`. -/
def termLoop : Nat → Expr → PM Expr
  | 0, _ => modelPanic
  | fuel + 1, e => do
    if ← is_match [.minus, .plus] then
      let operator ← previous
      let right ← factor fuel
      termLoop fuel (.binary e operator right)
    else
      pure e

/-- `Parser::factor`. -/
def factor : Nat → PM Expr
  | 0 => modelPanic
  | fuel + 1 => do
    let e ← unary fuel
    factorLoop fuel e

/-- The loop of `Parser::factor`. -/
def factorLoop : Nat → Expr → PM Expr
  | 0, _ => modelPanic
  | fuel + 1, e => do
    if ← is_match [.star, .slash] then
      let operator ← previous
      let right ← unary fuel
      factorLoop fuel (.binary e operator right)
    else
      pure e

/-- `Parser::unary`. -/
def unary : Nat → PM Expr
  | 0 => modelPanic
  | fuel + 1 => do
    if ← is_match [.bang, .minus] then
      let operator ← previous
      let right ← unary fuel
      pure (.unary operator right)
    else
      callExpr fuel

/-- `Parser::call` (named `callExpr` here). -/
def callExpr : Nat → PM Expr
  | 0 => modelPanic
  | fuel + 1 => do
    let e ← primary fuel
    callLoop fuel e

/-- The postfix loop of `Parser::call`: call arguments or property
access. -/
def callLoop : Nat → Expr → PM Expr
  | 0, _ => modelPanic
  | fuel + 1, e => do
    if ← is_match [.leftParen] then
      let e' ← finish_call fuel e
      callLoop fuel e'
    else if ← is_match [.dot] then
      let name ← consume .identifier "Expect property name after '.'."
      callLoop fuel (.get e name)
    else
      pure e

/-- `Parser::finish_call`. -/
def finish_call : Nat → Expr → PM Expr
  | 0, _ => modelPanic
  | fuel + 1, callee => do
    let arguments ←
      (do
        if ¬ (← check .rightParen) then
          let first ← expression fuel
          argsLoop fuel [first]
        else pure ([] : List Expr))
    let paren ← consume .rightParen "Expect ')' after arguments."
    pure (.call callee paren arguments)

/-- The argument loop of `Parser::finish_call`. -/
def argsLoop : Nat → List Expr → PM (List Expr)
  | 0, _ => modelPanic
  | fuel + 1, arguments => do
    if ← is_match [.comma] then
      if arguments.length ≥ 255 then
        let t ← peek
        let _ ← perror t "You can't have more than 255 arguments."
        pure ()
      let a ← expression fuel
      argsLoop fuel (arguments ++ [a])
    else
      pure arguments

/-- `Parser::primary`.  This parser iteration recognises no `this` or
`super`; note the final failure raises a `ParseError` directly without
setting `had_error` (it calls `LoxResult::parse_error`, not
`Parser::error`). -/
def primary : Nat → PM Expr
  | 0 => modelPanic
  | fuel + 1 => do
    if ← is_match [.falseKw] then pure (.literal (some (.bool false)))
    else if ← is_match [.trueKw] then pure (.literal (some (.bool true)))
    else if ← is_match [.nilKw] then pure (.literal (some .nil))
    else if ← is_match [.stringLiteral, .numberLiteral] then do
      let t ← previous
      pure (.literal t.literal)
    else if ← is_match [.identifier] then do
      let t ← previous
      let id ← freshId
      pure (.variable_ id t)
    else if ← is_match [.leftParen] then do
      let e ← expression fuel
      let _ ← consume .rightParen "Expect ')' after expression."
      pure (.grouping e)
    else fun s =>
      match s.tokens.get? s.current with
      | none => none
      | some t => some (.error (.parseError t "Expect Expression"),
          { s with had_error := s.had_error })

end

/-- The `while !is_at_end` loop of `Parser::parse`: note the `?` — the
first declaration error aborts the whole parse. -/
def parseLoop : Nat → PM (List Stmt)
  | 0 => modelPanic
  | fuel + 1 => do
    if ¬ (← is_at_end) then
      let s ← declaration (fuel + 1)
      let rest ← parseLoop fuel
      pure (s :: rest)
    else
      pure []

/-- A fresh parser for a token list (`Parser::new`). -/
def mkParser (tokens : List Token) : PState := ⟨tokens, 0, false, 0⟩

/-- `Parser::parse` with explicit fuel. -/
def parseFueled (fuel : Nat) (s : PState) :
    Option (Except LoxResult (List Stmt) × PState) :=
  parseLoop fuel s

/-- `Parser::parse` on a fresh parser, fuel derived from the input size. -/
def parse (tokens : List Token) :
    Option (Except LoxResult (List Stmt) × PState) :=
  parseFueled ((tokens.length + 2) * 32) (mkParser tokens)

end Parser

/-- `resolver.rs::FunctionType`. -/
inductive FunctionType where
  | none_ | initializer | function | method
deriving DecidableEq, Repr

/-- `resolver.rs::ClassType`. -/
inductive ClassType where
  | none_ | subclass | class_
deriving DecidableEq, Repr

/-- Resolver state, from `resolver.rs` (`struct Resolver`).  `scopes` is
the scope stack with the HEAD as the innermost scope (the `last()` of the
source's `Vec`); `locals` is the interpreter side table the resolver
writes through `Interpreter::resolve` (node id → distance). -/
structure RState where
  scopes : List (List (String × Bool))
  had_error : Bool
  current_function : FunctionType
  current_class : ClassType
  locals : List (Nat × Nat)
deriving DecidableEq, Repr

/-- Resolver computations. -/
abbrev RM (α : Type) : Type := LoxM RState α

namespace Resolver

/-- `Resolver::error`: set `had_error`; the `LoxResult` built by
`LoxResult::runtime_error` there is only printed and dropped. -/
def rerror : RM Unit :=
  modifyS fun s => { s with had_error := true }

/-- `Resolver::begin_scope`. -/
def begin_scope : RM Unit :=
  modifyS fun s => { s with scopes := [] :: s.scopes }

/-- `Resolver::end_scope`. -/
def end_scope : RM Unit :=
  modifyS fun s => { s with scopes := s.scopes.tail }

/-- `Resolver::declare`: in the innermost scope (if any), report a
duplicate and insert the name as declared-but-undefined. -/
def declare (name : Token) : RM Unit := do
  let s ← getS
  match s.scopes with
  | [] => pure ()
  | scope :: _ => do
    if (alistGet name.lexeme scope).isSome then rerror
    modifyS fun s' =>
      { s' with scopes :=
          match s'.scopes with
          | [] => []
          | scope' :: rest' => alistInsert name.lexeme false scope' :: rest' }

/-- `Resolver::define`: mark the name defined in the innermost scope. -/
def define (name : Token) : RM Unit :=
  modifyS fun s =>
    { s with scopes :=
        match s.scopes with
        | [] => []
        | scope :: rest => alistInsert name.lexeme true scope :: rest }

/-- The scan of `Resolver::resolve_local`: the index (from innermost) of
the first scope containing the name. -/
def scopeIndexOf (name : String) : List (List (String × Bool)) → Option Nat
  | [] => none
  | scope :: rest =>
    if (alistGet name scope).isSome then some 0
    else (scopeIndexOf name rest).map (· + 1)

/-- `Resolver::resolve_local` + `Interpreter::resolve`: record the node's
distance when some scope binds the name; global references are left
unrecorded. -/
def resolve_local (id : Nat) (name : Token) : RM Unit := do
  let s ← getS
  match scopeIndexOf name.lexeme s.scopes with
  | some depth =>
      modifyS fun s' => { s' with locals := (id, depth) :: s'.locals }
  | none => pure ()

/-- The parameter loop of `Resolver::resolve_function`. -/
def declareParams : List Token → RM Unit
  | [] => pure ()
  | p :: rest => do
    declare p
    define p
    declareParams rest

mutual

/-- `Stmt::accept` for the resolver (`StmtVisitor` impl in
`resolver.rs`). -/
def resolveStmt : Nat → Stmt → RM Unit
  | 0, _ => modelPanic
  | fuel + 1, stmt =>
    match stmt with
    | .block statements => do
      begin_scope
      resolveStmts fuel statements
      end_scope
    | .class_ name superclass methods => do
      let s0 ← getS
      let enclosing_class := s0.current_class
      modifyS fun s => { s with current_class := .class_ }
      declare name
      define name
      match superclass with
      | some sup => do
        (match sup with
         | .variable_ _ v => do
           if name.lexeme = v.lexeme then rerror
         | _ => pure ())
        modifyS fun s => { s with current_class := .subclass }
        resolveExpr fuel sup
        begin_scope
        (fun s =>
          match s.scopes with
          | [] => none
          | scope :: rest =>
            some (.ok (), { s with scopes := alistInsert "super" true scope :: rest }))
      | none => pure ()
      begin_scope
      (fun s =>
        match s.scopes with
        | [] => none
        | scope :: rest =>
          some (.ok (), { s with scopes := alistInsert "this" true scope :: rest }))
      resolveMethods fuel methods
      end_scope
      if superclass.isSome then end_scope
      modifyS fun s => { s with current_class := enclosing_class }
    | .expression e => resolveExpr fuel e
    | .function name params body => do
      declare name
      define name
      resolve_function fuel params body .function
    | .if_ condition then_branch else_branch => do
      resolveExpr fuel condition
      resolveStmt fuel then_branch
      match else_branch with
      | some e => resolveStmt fuel e
      | none => pure ()
    | .print e => resolveExpr fuel e
    | .return_ _ value => do
      let s ← getS
      if s.current_function = .none_ then rerror
      match value with
      | some v => do
        let s' ← getS
        if s'.current_function = .initializer then rerror
        resolveExpr fuel v
      | none => pure ()
    | .var name initializer => do
      declare name
      match initializer with
      | some init => resolveExpr fuel init
      | none => pure ()
      define name
    | .while_ condition body => do
      resolveExpr fuel condition
      resolveStmt fuel body

/-- The method loop of `Resolver::visit_class_stmt`: non-`Function`
entries are silently skipped (`if let`). -/
def resolveMethods : Nat → List Stmt → RM Unit
  | 0, _ => modelPanic
  | _ + 1, [] => pure ()
  | fuel + 1, m :: rest => do
    (match m with
     | .function name params body => do
       let declaration :=
         if name.lexeme = "init" then FunctionType.initializer
         else FunctionType.method
       resolve_function fuel params body declaration
     | _ => pure ())
    resolveMethods fuel rest

/-- `Resolver::resolve` over a statement list. -/
def resolveStmts : Nat → List Stmt → RM Unit
  | 0, _ => modelPanic
  | _ + 1, [] => pure ()
  | fuel + 1, stmt :: rest => do
    resolveStmt fuel stmt
    resolveStmts fuel rest

/-- `Resolver::resolve_function`. -/
def resolve_function : Nat → List Token → List Stmt → FunctionType → RM Unit
  | 0, _, _, _ => modelPanic
  | fuel + 1, params, body, function_type => do
    let s0 ← getS
    let enclosing_function := s0.current_function
    modifyS fun s => { s with current_function := function_type }
    begin_scope
    declareParams params
    resolveStmts fuel body
    end_scope
    modifyS fun s => { s with current_function := enclosing_function }

/-- `Expr::accept` for the resolver (`ExprVisitor` impl in
`resolver.rs`). -/
def resolveExpr : Nat → Expr → RM Unit
  | 0, _ => modelPanic
  | fuel + 1, expr =>
    match expr with
    | .assign id name value => do
      resolveExpr fuel value
      resolve_local id name
    | .binary left _ right => do
      resolveExpr fuel left
      resolveExpr fuel right
    | .call callee _ arguments => do
      resolveExpr fuel callee
      resolveExprs fuel arguments
    | .get object _ => resolveExpr fuel object
    | .grouping e => resolveExpr fuel e
    | .literal _ => pure ()
    | .logical left _ right => do
      resolveExpr fuel left
      resolveExpr fuel right
    | .set object _ value => do
      resolveExpr fuel value
      resolveExpr fuel object
    | .super_ id keyword _ => do
      let s ← getS
      match s.current_class with
      | .none_ => rerror
      | .class_ => rerror
      | .subclass => pure ()
      resolve_local id keyword
    | .this_ id keyword => do
      let s ← getS
      if s.current_class = .none_ then rerror
      resolve_local id keyword
    | .unary _ right => resolveExpr fuel right
    | .variable_ id name => do
      let s ← getS
      if s.scopes ≠ [] ∧
          (s.scopes.head?.bind (alistGet name.lexeme)) = some false then
        throwLox (.runtimeError name
          "Can't read local variable in it's own initializer")
      else do
        resolve_local id name

/-- The argument loop of the resolver's `visit_call_expr`. -/
def resolveExprs : Nat → List Expr → RM Unit
  | 0, _ => modelPanic
  | _ + 1, [] => pure ()
  | fuel + 1, e :: rest => do
    resolveExpr fuel e
    resolveExprs fuel rest

end

/-- A fresh resolver (`Resolver::new`). -/
def mkResolver : RState := ⟨[], false, .none_, .none_, []⟩

/-- `Resolver::success`. -/
def success (s : RState) : Bool := ¬ s.had_error

end Resolver

/-- A function value, from `function.rs` (`struct Function`): declaration
pieces, the captured environment (heap id) and the initializer flag. -/
structure FuncVal where
  name : Token
  params : List Token
  body : List Stmt
  closure : Nat
  is_initializer : Bool
deriving Repr

/-- An instance, from `instance.rs` (`struct Instance`). -/
structure InstVal where
  klass : Nat
  fields : List (String × Object)
deriving DecidableEq, Repr

/-- Interpreter state, from `interpreter.rs` (`struct Interpreter`) plus
the heaps standing for the `Rc` cells: environment frames, function
values, class values, instances.  `output` collects `print`ed lines;
`clockVal` is the wall-clock oracle behind the native `clock`. -/
structure IState where
  envs : EnvHeap
  funcs : List FuncVal
  classes : List ClassVal
  instances : List InstVal
  environment : Nat
  globals : Nat
  locals : List (Nat × Nat)
  output : List String
  clockVal : ℚ

/-- Interpreter computations. -/
abbrev IM (α : Type) : Type := LoxM IState α

namespace Interpreter

/-- `Class::find_method`: the class's own table first, then the superclass
chain.  Outer `none` is a panic/dangling id; inner `none` is a genuine
miss. -/
def find_method (classes : List ClassVal) : Nat → Nat → String →
    Option (Option Object)
  | 0, _, _ => none
  | fuel + 1, cid, name =>
    match classes.get? cid with
    | none => none
    | some c =>
      match alistGet name c.methods with
      | some m => some (some m)
      | none =>
        match c.superclass with
        | some sup => find_method classes fuel sup name
        | none => some none

mutual

/-- The derived `PartialEq` on `Object`: structural on primitives,
pointer (id) equality for `Func`/`Native`, derived structural equality
for `Class` and `Instance` (which recurses through superclasses and
fields; on cyclic instance graphs the Rust recursion would not terminate,
modelled by the fuel). -/
def objEqF (classes : List ClassVal) (instances : List InstVal) :
    Nat → Object → Object → Option Bool
  | 0, _, _ => none
  | fuel + 1, a, b =>
    match a, b with
    | .num x, .num y => some (x = y)
    | .str x, .str y => some (x = y)
    | .bool x, .bool y => some (x = y)
    | .nil, .nil => some true
    | .arithmeticError, .arithmeticError => some true
    | .divByZeroError, .divByZeroError => some true
    | .func i, .func j => some (i = j)
    | .native i, .native j => some (i = j)
    | .class_ i, .class_ j => classEqF classes instances fuel i j
    | .instance_ i, .instance_ j =>
      match instances.get? i, instances.get? j with
      | some x, some y => do
        let kEq ← classEqF classes instances fuel x.klass y.klass
        if kEq then mapEqF classes instances fuel x.fields y.fields
        else some false
      | _, _ => none
    | _, _ => some false

/-- Derived `PartialEq` on `Class` through heap ids. -/
def classEqF (classes : List ClassVal) (instances : List InstVal) :
    Nat → Nat → Nat → Option Bool
  | 0, _, _ => none
  | fuel + 1, i, j =>
    match classes.get? i, classes.get? j with
    | some x, some y =>
      if x.name ≠ y.name then some false
      else do
        let mEq ← mapEqF classes instances fuel x.methods y.methods
        if ¬ mEq then pure false
        else
          match x.superclass, y.superclass with
          | none, none => some true
          | some a, some b => classEqF classes instances fuel a b
          | _, _ => some false
    | _, _ => none

/-- `HashMap<String, Object>` equality: equal sizes and pointwise equal
values. -/
def mapEqF (classes : List ClassVal) (instances : List InstVal) :
    Nat → List (String × Object) → List (String × Object) → Option Bool
  | 0, _, _ => none
  | fuel + 1, xs, ys =>
    if xs.length ≠ ys.length then some false
    else pairsInF classes instances fuel xs ys

/-- Each binding of `xs` matched in `ys`. -/
def pairsInF (classes : List ClassVal) (instances : List InstVal) :
    Nat → List (String × Object) → List (String × Object) → Option Bool
  | 0, _, _ => none
  | _ + 1, [], _ => some true
  | fuel + 1, (k, v) :: rest, ys =>
    match alistGet k ys with
    | none => some false
    | some w => do
      let e ← objEqF classes instances fuel v w
      if e then pairsInF classes instances fuel rest ys else some false

end

/-- `Class` `Display`: the name and the method-name list. -/
def classDisplay (classes : List ClassVal) (cid : Nat) : Option String :=
  (classes.get? cid).map fun c =>
    c.name ++ " with methods: \x7b " ++
      String.intercalate ", " (c.methods.map (·.1)) ++ " \x7d"

mutual

/-- `Object` `Display` (`"{}"` formatting), recursing into instances'
fields; `f64` formatting is modelled by `ℚ`'s. -/
def displayF (classes : List ClassVal) (instances : List InstVal) :
    Nat → Object → Option String
  | 0, _ => none
  | fuel + 1, o =>
    match o with
    | .num n => some (toString n)
    | .str x => some x
    | .bool b => some (if b then "true" else "false")
    | .nil => some "nil"
    | .func _ => some "<func>"
    | .arithmeticError => some "ArithmeticError"
    | .divByZeroError => some "DivByZeroError"
    | .native _ => some "<Native function>"
    | .class_ cid =>
      (classDisplay classes cid).map fun cd => "<Class " ++ cd ++ ">"
    | .instance_ iid =>
      match instances.get? iid with
      | none => none
      | some inst => do
        let cd ← classDisplay classes inst.klass
        let fs ← fieldsDisplayF classes instances fuel inst.fields
        some ("<Instance " ++ cd ++ " with \x7b " ++
          String.intercalate ", " fs ++ " \x7d>")

/-- `Instance` `Display`'s field formatting: string values are quoted. -/
def fieldsDisplayF (classes : List ClassVal) (instances : List InstVal) :
    Nat → List (String × Object) → Option (List String)
  | 0, _ => none
  | _ + 1, [] => some []
  | fuel + 1, (k, v) :: rest => do
    let d ← displayF classes instances fuel v
    let rest' ← fieldsDisplayF classes instances fuel rest
    match v with
    | .str _ => some ((k ++ " = \"" ++ d ++ "\"") :: rest')
    | _ => some ((k ++ " = " ++ d) :: rest')

end

/-- The fuel that suffices for equality/display recursion on acyclic
heaps. -/
def heapFuel (s : IState) : Nat := s.classes.length + s.instances.length + 4

/-- `Interpreter::is_truthy`. -/
def is_truthy : Object → Bool
  | .nil => false
  | .bool false => false
  | _ => true

/-- `Function::bind`: a new environment defining `this` over the captured
closure, and a new function value capturing it. -/
def bindFn (s : IState) (fid : Nat) (inst : Object) :
    Option (Object × IState) :=
  (s.funcs.get? fid).map fun f =>
    let newEnvId := s.envs.length
    let newFid := s.funcs.length
    (Object.func newFid,
      { s with
          envs := s.envs ++ [⟨[("this", inst)], some f.closure⟩],
          funcs := s.funcs ++ [{ f with closure := newEnvId }] })

/-- `Function::bind` in the interpreter monad. -/
def bindIM (fid : Nat) (inst : Object) : IM Object := fun s =>
  match bindFn s fid inst with
  | none => none
  | some (o, s') => some (.ok o, s')

/-- `Instance::get`: field first, else a bound method, else
undefined-property (source spelling kept). -/
def instanceGet (iid : Nat) (name : Token) : IM Object := do
  let s ← getS
  match s.instances.get? iid with
  | none => modelPanic
  | some inst =>
    match alistGet name.lexeme inst.fields with
    | some v => pure v
    | none =>
      match find_method s.classes (s.classes.length + 1) inst.klass
          name.lexeme with
      | none => modelPanic
      | some (some m) =>
        match m with
        | .func fid => bindIM fid (.instance_ iid)
        | _ => throwLox (.runtimeError name
            "'this' is defined on a non-function")
      | some none => throwLox (.runtimeError name
          ("Undefined propertiry '" ++ name.lexeme ++ "'."))

/-- `Instance::set`: create or update the field. -/
def instanceSet (iid : Nat) (name : Token) (v : Object) : IM Unit := do
  let s ← getS
  match s.instances.get? iid with
  | none => modelPanic
  | some inst => do
    let inst' := { inst with fields := alistInsert name.lexeme v inst.fields }
    setS { s with instances := s.instances.set iid inst' }

/-- `Class::arity`: the arity of `init` when present, else 0. -/
def classArity (classes : List ClassVal) (funcs : List FuncVal)
    (cid : Nat) : Option Nat :=
  match find_method classes (classes.length + 1) cid "init" with
  | none => none
  | some (some (.func fid)) => (funcs.get? fid).map fun f => f.params.length
  | some (some _) => some 0
  | some none => some 0

/-- `Interpreter::lookup_variable`: a recorded distance goes through
`get_at` on the current environment; otherwise the globals chain is
searched by name. -/
def lookup_variable (name : Token) (id : Nat) : IM Object := do
  let s ← getS
  match alistGet id s.locals with
  | some d => liftUnwrap (Environment.get_at s.envs s.environment d name.lexeme)
  | none =>
    match Environment.get s.envs (s.envs.length + 1) s.globals name with
    | none => modelPanic
    | some (.ok v) => pure v
    | some (.error e) => throwLox e

/-- Define a name in the current frame
(`self.environment.borrow().borrow_mut().define(..)`). -/
def defineCurrent (name : String) (v : Object) : IM Unit :=
  modifyS fun s =>
    { s with envs := Environment.define s.envs s.environment name v }

/-- The arity-mismatch error of `Interpreter::visit_call_expr`. -/
def arityError (paren : Token) (expected got : Nat) : LoxResult :=
  .runtimeError paren
    ("Expected " ++ toString expected ++ " arguments but got " ++
      toString got ++ ".")

/-- The native `clock` and `num_to_str` calls
(`native_functions.rs`), by native id (0 = `clock`, 1 = `num_to_str` as
defined in `Interpreter::new`). -/
def nativeCall (nid : Nat) (args : List Object) : IM Object := do
  match nid with
  | 0 => do
    let s ← getS
    pure (.num s.clockVal)
  | 1 =>
    match args with
    | a :: _ => do
      let s ← getS
      let d ← liftUnwrap (displayF s.classes s.instances (heapFuel s) a)
      pure (.str d)
    | [] => modelPanic
  | _ => modelPanic

/-- The arity of a native (`NativeClock` 0, `NativeNumToString` 1). -/
def nativeArity (nid : Nat) : Option Nat :=
  match nid with
  | 0 => some 0
  | 1 => some 1
  | _ => none

mutual

/-- `Stmt::accept` for the interpreter (`StmtVisitor` impl in
`interpreter.rs`). -/
def execute : Nat → Stmt → IM Unit
  | 0, _ => modelPanic
  | fuel + 1, stmt =>
    match stmt with
    | .block statements => do
      let s ← getS
      execute_block fuel statements ⟨[], some s.environment⟩
    | .class_ name superclassExpr methods => do
      let superclass ←
        (match superclassExpr with
         | some supExpr => do
           let v ← evaluate fuel supExpr
           (match v with
            | .class_ c => pure (some c)
            | _ =>
              match supExpr with
              | .variable_ _ vname =>
                throwLox (.runtimeError vname "Superclass must be a class.")
              | _ => modelPanic)
         | none => pure (none : Option Nat))
      defineCurrent name.lexeme .nil
      let enclosing ←
        (match superclass with
         | some sid => do
           let s ← getS
           let newId := s.envs.length
           setS { s with
             envs := s.envs ++ [⟨[("super", .class_ sid)], some s.environment⟩],
             environment := newId }
           pure (some s.environment)
         | none => pure (none : Option Nat))
      let methodTable ← buildMethods fuel methods []
      let s ← getS
      let kid := s.classes.length
      setS { s with classes := s.classes ++ [⟨name.lexeme, methodTable, superclass⟩] }
      (match enclosing with
       | some prev => modifyS fun s' => { s' with environment := prev }
       | none => pure ())
      let s' ← getS
      match Environment.assign s'.envs (s'.envs.length + 1) s'.environment
          name (.class_ kid) with
      | none => modelPanic
      | some (.error e) => throwLox e
      | some (.ok h) => setS { s' with envs := h }
    | .expression e => do
      let _ ← evaluate fuel e
      pure ()
    | .function name params body => do
      let s ← getS
      let fid := s.funcs.length
      setS { s with funcs := s.funcs ++ [⟨name, params, body, s.environment, false⟩] }
      defineCurrent name.lexeme (.func fid)
    | .if_ condition then_branch else_branch => do
      let c ← evaluate fuel condition
      if is_truthy c then execute fuel then_branch
      else
        match else_branch with
        | some e => execute fuel e
        | none => pure ()
    | .print e => do
      let v ← evaluate fuel e
      let s ← getS
      let d ← liftUnwrap (displayF s.classes s.instances (heapFuel s) v)
      modifyS fun s' => { s' with output := s'.output ++ [d] }
    | .return_ _ value =>
      (match value with
       | some v => do
         let o ← evaluate fuel v
         throwLox (.returnValue o)
       | none => throwLox (.returnValue .nil))
    | .var name initializer => do
      let v ←
        (match initializer with
         | some init => evaluate fuel init
         | none => pure Object.nil)
      defineCurrent name.lexeme v
    | .while_ condition body => whileLoop fuel condition body

/-- The method-table loop of the interpreter's `visit_class_stmt`:
each `Function` method is closed over the current environment; a
non-`Function` entry is a `panic!`. -/
def buildMethods : Nat → List Stmt → List (String × Object) →
    IM (List (String × Object))
  | 0, _, _ => modelPanic
  | _ + 1, [], acc => pure acc
  | fuel + 1, m :: rest, acc =>
    match m with
    | .function mname mparams mbody => do
      let s ← getS
      let is_init := mname.lexeme = "init"
      let fid := s.funcs.length
      setS { s with funcs := s.funcs ++ [⟨mname, mparams, mbody, s.environment, is_init⟩] }
      buildMethods fuel rest (alistInsert mname.lexeme (Object.func fid) acc)
    | _ => modelPanic

/-- The `while` of `Interpreter::visit_while_stmt`. -/
def whileLoop : Nat → Expr → Stmt → IM Unit
  | 0, _, _ => modelPanic
  | fuel + 1, condition, body => do
    let c ← evaluate fuel condition
    if is_truthy c then do
      execute fuel body
      whileLoop fuel condition body
    else
      pure ()

/-- The `try_for_each` over a statement list. -/
def executeAll : Nat → List Stmt → IM Unit
  | 0, _ => modelPanic
  | _ + 1, [] => pure ()
  | fuel + 1, stmt :: rest => do
    execute fuel stmt
    executeAll fuel rest

/-- `Interpreter::execute_block`, from `interpreter.rs` lines 377–386:
remember the current environment pointer, switch to a fresh frame, run
the statements, and restore the pointer around whatever `Result` came
back.  (A Rust panic — `none` — skips the restore, as unwinding would.) -/
def execute_block : Nat → List Stmt → Frame → IM Unit
  | 0, _, _ => modelPanic
  | fuel + 1, statements, environment => fun s =>
    let previous := s.environment
    let newId := s.envs.length
    let s1 := { s with envs := s.envs ++ [environment], environment := newId }
    match executeAll fuel statements s1 with
    | none => none
    | some (r, s2) => some (r, { s2 with environment := previous })

/-- `Expr::accept` for the interpreter (`ExprVisitor` impl in
`interpreter.rs`). -/
def evaluate : Nat → Expr → IM Object
  | 0, _ => modelPanic
  | fuel + 1, expr =>
    match expr with
    | .literal v => liftUnwrap v
    | .grouping e => evaluate fuel e
    | .binary left operator right => do
      let lv ← evaluate fuel left
      let rv ← evaluate fuel right
      let result ←
        (match operator.token_type with
         | .star => pure (Object.mul lv rv)
         | .slash => pure (Object.div lv rv)
         | .minus => pure (Object.sub lv rv)
         | .plus => pure (Object.add lv rv)
         | .greater => pure (Object.bool (Object.ogt lv rv))
         | .greaterEqual => pure (Object.bool (Object.oge lv rv))
         | .less => pure (Object.bool (Object.olt lv rv))
         | .lessEqual => pure (Object.bool (Object.ole lv rv))
         | .bangEqual => do
           let s ← getS
           let b ← liftUnwrap (objEqF s.classes s.instances (heapFuel s) lv rv)
           pure (Object.bool (¬ b))
         | .equalEqual => do
           let s ← getS
           let b ← liftUnwrap (objEqF s.classes s.instances (heapFuel s) lv rv)
           pure (Object.bool b)
         | _ => modelPanic)
      (match result with
       | .arithmeticError => throwLox (.runtimeError operator "ArithmeticError")
       | .divByZeroError => throwLox (.runtimeError operator "DivByZeroError")
       | _ => pure result)
    | .unary operator right => do
      let v ← evaluate fuel right
      (match operator.token_type with
       | .minus =>
         (match v with
          | .num n => pure (Object.num (n * (-1)))
          | _ => pure Object.nil)
       | .bang => pure (Object.bool (¬ is_truthy v))
       | _ => throwLox (.runtimeError operator "Unreachable"))
    | .variable_ id name => lookup_variable name id
    | .assign id name value => do
      let v ← evaluate fuel value
      let s ← getS
      (match alistGet id s.locals with
       | some d =>
         (match Environment.assign_at s.envs s.environment d name.lexeme v with
          | none => modelPanic
          | some h => setS { s with envs := h })
       | none =>
         match Environment.assign s.envs (s.envs.length + 1) s.globals
             name v with
         | none => modelPanic
         | some (.error e) => throwLox e
         | some (.ok h) => setS { s with envs := h })
      pure v
    | .logical left operator right => do
      let lv ← evaluate fuel left
      if operator.token_type = .orKw then
        if is_truthy lv then pure lv else evaluate fuel right
      else
        if ¬ is_truthy lv then pure lv else evaluate fuel right
    | .call callee paren arguments => do
      let cv ← evaluate fuel callee
      let args ← evalArgs fuel arguments
      (match cv with
       | .func fid => do
         let s ← getS
         let f ← liftUnwrap (s.funcs.get? fid)
         if args.length ≠ f.params.length then
           throwLox (arityError paren f.params.length args.length)
         else
           callFunction fuel fid args
       | .native nid => do
         let ar ← liftUnwrap (nativeArity nid)
         if args.length ≠ ar then
           throwLox (arityError paren ar args.length)
         else
           nativeCall nid args
       | .class_ cid => do
         let s ← getS
         let ar ← liftUnwrap (classArity s.classes s.funcs cid)
         if args.length ≠ ar then
           throwLox (arityError paren ar args.length)
         else
           instantiate fuel cid args
       | _ => throwLox (.runtimeError paren "Can only call functions and classes"))
    | .get object name => do
      let o ← evaluate fuel object
      (match o with
       | .instance_ iid => instanceGet iid name
       | _ => throwLox (.runtimeError name "Only instances have properties."))
    | .set object name value => do
      let o ← evaluate fuel object
      (match o with
       | .instance_ iid => do
         let v ← evaluate fuel value
         instanceSet iid name v
         pure v
       | _ => throwLox (.runtimeError name "Only instances have fields."))
    | .this_ id keyword => lookup_variable keyword id
    | .super_ id _ method => do
      let s ← getS
      let d ← liftUnwrap (alistGet id s.locals)
      let superObj ← liftUnwrap
        (Environment.get_at s.envs s.environment d "super")
      let obj ←
        (if d = 0 then modelPanic
         else liftUnwrap
           (Environment.get_at s.envs s.environment (d - 1) "this"))
      (match superObj with
       | .class_ sc =>
         (match find_method s.classes (s.classes.length + 1) sc
             method.lexeme with
          | none => modelPanic
          | some (some (.func fid)) => bindIM fid obj
          | some (some _) => modelPanic
          | some none => throwLox (.runtimeError method
              ("Undefined property '" ++ method.lexeme ++ "'.")))
       | _ => throwLox (.runtimeError method
           ("Undefined property '" ++ method.lexeme ++ "'.")))

/-- The argument loop of `Interpreter::visit_call_expr`. -/
def evalArgs : Nat → List Expr → IM (List Object)
  | 0, _ => modelPanic
  | _ + 1, [] => pure []
  | fuel + 1, e :: rest => do
    let v ← evaluate fuel e
    let vs ← evalArgs fuel rest
    pure (v :: vs)

/-- `Function::call` (`impl LoxCallable for Function` in `function.rs`):
new frame over the closure binding parameters in order, run the body as a
block; a `ReturnValue` outcome yields its payload UNCONDITIONALLY, while
normal completion yields `this` for initializers and `nil` otherwise. -/
def callFunction : Nat → Nat → List Object → IM Object
  | 0, _, _ => modelPanic
  | fuel + 1, fid, args => do
    let s ← getS
    match s.funcs.get? fid with
    | none => modelPanic
    | some f => do
      let bindings := (f.params.zip args).foldl
        (fun acc (pa : Token × Object) => alistInsert pa.1.lexeme pa.2 acc) []
      let r ← tryLox (execute_block fuel f.body ⟨bindings, some f.closure⟩) pure
      (match r with
       | .error (.returnValue v) => pure v
       | .error e => throwLox e
       | .ok () =>
         if f.is_initializer then do
           let s' ← getS
           liftUnwrap (Environment.get_at s'.envs f.closure 0 "this")
         else
           pure Object.nil)

/-- `Class::instantiate`: allocate the instance, bind-and-run `init` when
the class chain has one, and return the instance regardless of the
initializer's result value. -/
def instantiate : Nat → Nat → List Object → IM Object
  | 0, _, _ => modelPanic
  | fuel + 1, cid, args => do
    let s ← getS
    let iid := s.instances.length
    setS { s with instances := s.instances ++ [⟨cid, []⟩] }
    let instObj := Object.instance_ iid
    (match find_method s.classes (s.classes.length + 1) cid "init" with
     | none => modelPanic
     | some (some (.func initFid)) => do
       let bound ← bindIM initFid instObj
       (match bound with
        | .func bfid => do
          let _ ← callFunction fuel bfid args
          pure ()
        | _ => pure ())
     | some (some _) => pure ()
     | some none => pure ())
    pure instObj

end

/-- `Interpreter::interpret`: `true` iff no statement raised. -/
def interpret (fuel : Nat) (statements : List Stmt) (s : IState) :
    Option (Bool × IState) :=
  match executeAll fuel statements s with
  | none => none
  | some (.ok _, s') => some (true, s')
  | some (.error _, s') => some (false, s')

/-- `Interpreter::new`: globals holding the two natives; globals is the
current environment. -/
def mkInterpreter : IState :=
  { envs := [⟨[("clock", .native 0), ("num_to_str", .native 1)], none⟩]
    funcs := []
    classes := []
    instances := []
    environment := 0
    globals := 0
    locals := []
    output := []
    clockVal := 0 }

end Interpreter

/-- An identifier token. -/
def identTokL (name : String) : Token := ⟨.identifier, name, none, 1⟩

/-- A literal-free token of a given kind. -/
def tokOf (tt : TokenType) (lexeme : String) : Token := ⟨tt, lexeme, none, 1⟩

/-- A two-frame environment chain: the current frame binds `x` to 2, its
parent binds `x` to 1. -/
def c1Heap : EnvHeap := [⟨[("x", .num 2)], some 1⟩, ⟨[("x", .num 1)], none⟩]

/-- The token sequence of `class N < M { }`. -/
def classSupTokens (n m : String) : List Token :=
  [tokOf .classKw "class", identTokL n, tokOf .less "<", identTokL m,
   tokOf .leftBrace "\x7b", tokOf .rightBrace "\x7d", tokOf .eof ""]

/-- The token sequence of `class N { }`. -/
def classTokens (n : String) : List Token :=
  [tokOf .classKw "class", identTokL n,
   tokOf .leftBrace "\x7b", tokOf .rightBrace "\x7d", tokOf .eof ""]

/-- The token sequence of `class N { F() { } }`. -/
def classMethodTokens (n f : String) : List Token :=
  [tokOf .classKw "class", identTokL n, tokOf .leftBrace "\x7b",
   identTokL f, tokOf .leftParen "(", tokOf .rightParen ")",
   tokOf .leftBrace "\x7b", tokOf .rightBrace "\x7d",
   tokOf .rightBrace "\x7d", tokOf .eof ""]

/-- The token sequence of the malformed declaration `var ;` followed by
arbitrary further tokens. -/
def c8Tokens (rest : List Token) : List Token :=
  [tokOf .varKw "var", tokOf .semicolon ";"] ++ rest ++ [tokOf .eof ""]

/-- An interpreter state holding one class `P` whose `init` (function 0,
`is_initializer` set) has the body `return;` and a closure (frame 1)
binding `this` to instance 0 over the globals frame. -/
def c4State : IState :=
  { envs := [⟨[], none⟩, ⟨[("this", .instance_ 0)], some 0⟩]
    funcs := [⟨identTokL "init", [],
      [.return_ (tokOf .returnKw "return") none], 1, true⟩]
    classes := [⟨"P", [("init", .func 0)], none⟩]
    instances := [⟨0, []⟩]
    environment := 0
    globals := 0
    locals := []
    output := []
    clockVal := 0 }

/-!  Theorems.  -/

/-- Helper: the monad bind propagates an error outcome unchanged. -/
theorem LoxM.bindF_error {σ α β : Type} (x : LoxM σ α) (f : α → LoxM σ β)
    (s s' : σ) (e : LoxResult) (hx : x s = some (.error e, s')) :
    LoxM.bindF x f s = some (.error e, s') := by
  unfold LoxM.bindF
  rw [hx]

/-- Helper: a variable reference whose name is mapped to `false` in the
innermost scope makes the resolver return the error immediately, leaving
the state untouched. -/
theorem resolveExpr_var_in_own_init (fuel : Nat) (i : Nat) (name : String)
    (sc : List (String × Bool)) (rs : List (List (String × Bool)))
    (he : Bool) (cf : FunctionType) (cc : ClassType) (loc : List (Nat × Nat))
    (hf : alistGet name sc = some false) :
    Resolver.resolveExpr (fuel + 1) (.variable_ i (identTokL name))
        ⟨sc :: rs, he, cf, cc, loc⟩
      = some (.error (.runtimeError (identTokL name)
          "Can't read local variable in it's own initializer"),
          ⟨sc :: rs, he, cf, cc, loc⟩) := by
  have h1 : Resolver.resolveExpr (fuel + 1) (.variable_ i (identTokL name))
        ⟨sc :: rs, he, cf, cc, loc⟩
      = (if sc :: rs ≠ [] ∧ alistGet name sc = some false
         then (throwLox (.runtimeError (identTokL name)
            "Can't read local variable in it's own initializer") : RM Unit)
         else Resolver.resolve_local i (identTokL name))
          ⟨sc :: rs, he, cf, cc, loc⟩ := rfl
  rw [h1, if_pos ⟨by simp, hf⟩]
  rfl

/-- Claim C1: the claim says `get_at(d, name)` reads the frame exactly `d`
parent links above the current one.  The code recurses on `self` instead
of the enclosing frame, so for EVERY distance it reads the current frame:
on the chain `c1Heap` (current frame binds `x` to 2, the parent to 1),
`get_at d "x"` is 2 for all `d`, while the frame one link up binds 1. -/
theorem C1_get_at_ignores_distance :
    (∀ d : Nat, Environment.get_at c1Heap 0 d "x" = some (Object.num 2))
    ∧ ((Environment.frame_at c1Heap 0 1).bind
        (fun fid => (c1Heap.get? fid).bind fun f => alistGet "x" f.values))
        = some (Object.num 1)
    ∧ Object.num 2 ≠ Object.num 1 := by
  refine ⟨?_, by decide, by decide⟩
  intro d
  induction d with
  | zero => decide
  | succ n ih => simpa [Environment.get_at] using ih

/-- Claim C2, counterexample: parsing the token sequence of
`class A < B { }` does not succeed — `class_declaration` consumes the
name and immediately demands `{`, so the `<` token raises a parse
error. -/
theorem C2_superclass_clause_rejected :
    (Parser.parse (classSupTokens "A" "B")).map Prod.fst
      = some (.error (.parseError (tokOf .less "<")
          "Expect '\x7b\x7b' before class body.")) := rfl

/-- Claim C2, amended: the parser accepts a class declaration WITHOUT a
superclass clause (producing a class statement carrying none), and every
`class IDENT < IDENT { ... }` sequence fails at the `<` with
"Expect '&#123;&#123;' before class body."; shown for all identifier
names. -/
theorem C2_amended_no_superclass_grammar :
    ∀ (n m f : String),
      (Parser.parse (classTokens n)).map Prod.fst
        = some (.ok [Stmt.class_ (identTokL n) none []])
      ∧ (Parser.parse (classMethodTokens n f)).map Prod.fst
        = some (.ok [Stmt.class_ (identTokL n) none
            [Stmt.function (identTokL f) [] []]])
      ∧ (Parser.parse (classSupTokens n m)).map Prod.fst
        = some (.error (.parseError (tokOf .less "<")
            "Expect '\x7b\x7b' before class body.")) := by
  intro n m f
  exact ⟨rfl, rfl, rfl⟩

/-- Claim C3: whenever `execute_block` finishes with a result — normal
completion, a runtime error, or the return carrier, all of which travel
in the `Except` channel — the interpreter's current-environment pointer
equals its pre-block value. -/
theorem C3_execute_block_restores_environment :
    ∀ (fuel : Nat) (statements : List Stmt) (environment : Frame)
      (s : IState) (r : Except LoxResult Unit) (s' : IState),
      Interpreter.execute_block fuel statements environment s = some (r, s')
      → s'.environment = s.environment := by
  intro fuel statements environment s r s' h
  cases fuel with
  | zero => exact absurd h (by simp [Interpreter.execute_block, modelPanic])
  | succ f =>
    simp only [Interpreter.execute_block] at h
    cases hx : Interpreter.executeAll f statements
        { s with envs := s.envs ++ [environment],
                 environment := s.envs.length } with
    | none => rw [hx] at h; cases h
    | some p =>
      obtain ⟨r2, s2⟩ := p
      rw [hx] at h
      cases h
      rfl

/-- Witness for C3 at a concrete block execution. -/
theorem C3_execute_block_restores_environment_witness :
    (Interpreter.execute_block 2 [] ⟨[], none⟩ Interpreter.mkInterpreter
      = some (.ok (), { Interpreter.mkInterpreter with
          envs := Interpreter.mkInterpreter.envs ++ [⟨[], none⟩] }))
    ∧ ({ Interpreter.mkInterpreter with
          envs := Interpreter.mkInterpreter.envs ++ [⟨[], none⟩] }
            : IState).environment
        = Interpreter.mkInterpreter.environment :=
  ⟨rfl, C3_execute_block_restores_environment 2 [] ⟨[], none⟩
    Interpreter.mkInterpreter (.ok ())
    { Interpreter.mkInterpreter with
        envs := Interpreter.mkInterpreter.envs ++ [⟨[], none⟩] } rfl⟩

/-- Claim C4: in `c4State`, function 0 is an initializer whose body is a
bare `return;` and whose closure (frame 1) binds `this` to instance 0;
calling it returns `nil`, not the bound instance — `Function::call`
yields the return carrier's payload unconditionally, applying the
`is_initializer` rule only on normal completion. -/
theorem C4_initializer_bare_return_yields_nil :
    (Interpreter.callFunction 9 0 [] c4State).map Prod.fst
      = some (.ok Object.nil)
    ∧ Environment.get_at c4State.envs 1 0 "this" = some (.instance_ 0)
    ∧ Object.nil ≠ Object.instance_ 0 := by
  refine ⟨by decide, by decide, by decide⟩

/-- Claim C5, counterexample: with both operands `nil` the operator `<=`
evaluates to `true`, not `false` — `partial_cmp` maps `(Nil, Nil)` to
`Equal`. -/
theorem C5_nil_nil_le_yields_true :
    Interpreter.evaluate 2
        (.binary (.literal (some .nil)) (tokOf .lessEqual "<=")
          (.literal (some .nil)))
        Interpreter.mkInterpreter
      = some (.ok (.bool true), Interpreter.mkInterpreter)
    ∧ Object.bool true ≠ Object.bool false := by
  refine ⟨rfl, by decide⟩

/-- Claim C5, amended: on every pair that is not two `Num`s, `<` and `>`
evaluate to `false`; `<=` and `>=` evaluate to `false` EXCEPT on the pair
`(nil, nil)`, where both evaluate to `true`. -/
theorem C5_amended_ordering_non_num :
    ∀ (a b : Object) (s : IState) (fuel : Nat),
      ¬ (a.isNum = true ∧ b.isNum = true) →
      Interpreter.evaluate (fuel + 2)
          (.binary (.literal (some a)) (tokOf .less "<")
            (.literal (some b))) s
        = some (.ok (.bool false), s)
      ∧ Interpreter.evaluate (fuel + 2)
          (.binary (.literal (some a)) (tokOf .greater ">")
            (.literal (some b))) s
        = some (.ok (.bool false), s)
      ∧ Interpreter.evaluate (fuel + 2)
          (.binary (.literal (some a)) (tokOf .lessEqual "<=")
            (.literal (some b))) s
        = some (.ok (.bool (decide (a = Object.nil ∧ b = Object.nil))), s)
      ∧ Interpreter.evaluate (fuel + 2)
          (.binary (.literal (some a)) (tokOf .greaterEqual ">=")
            (.literal (some b))) s
        = some (.ok (.bool (decide (a = Object.nil ∧ b = Object.nil))), s) := by
  intro a b s fuel h
  cases a <;> cases b <;> try exact ⟨rfl, rfl, rfl, rfl⟩
  exact absurd ⟨rfl, rfl⟩ h

/-- Witness for the amended C5 at `("u", nil)`. -/
theorem C5_amended_ordering_non_num_witness :
    (¬ ((Object.str "u").isNum = true ∧ Object.nil.isNum = true))
    ∧ (Interpreter.evaluate 2
          (.binary (.literal (some (.str "u"))) (tokOf .less "<")
            (.literal (some .nil))) Interpreter.mkInterpreter
        = some (.ok (.bool false), Interpreter.mkInterpreter)) :=
  ⟨by decide,
    (C5_amended_ordering_non_num (.str "u") .nil
      Interpreter.mkInterpreter 0 (by decide)).1⟩

/-- Claim C6, counterexample: comparing the number 1 with the string
"a" using `<` evaluates to the value `false` — an `Ok`, not a runtime
error — because `partial_cmp` returns `None` for such pairs and the
interpreter only converts `ArithmeticError`/`DivByZeroError` results
into errors. -/
theorem C6_num_vs_string_lt_yields_false :
    Interpreter.evaluate 2
        (.binary (.literal (some (.num 1))) (tokOf .less "<")
          (.literal (some (.str "a"))))
        Interpreter.mkInterpreter
      = some (.ok (.bool false), Interpreter.mkInterpreter) := rfl

/-- Claim C6, amended: a comparison in which exactly one operand is a
`Num` evaluates to `Ok false` for all four order operators; it never
raises an error. -/
theorem C6_amended_mixed_comparison_false :
    ∀ (a b : Object) (s : IState) (fuel : Nat),
      (a.isNum = true ∧ b.isNum = false) ∨
        (a.isNum = false ∧ b.isNum = true) →
      Interpreter.evaluate (fuel + 2)
          (.binary (.literal (some a)) (tokOf .less "<")
            (.literal (some b))) s
        = some (.ok (.bool false), s)
      ∧ Interpreter.evaluate (fuel + 2)
          (.binary (.literal (some a)) (tokOf .greater ">")
            (.literal (some b))) s
        = some (.ok (.bool false), s)
      ∧ Interpreter.evaluate (fuel + 2)
          (.binary (.literal (some a)) (tokOf .lessEqual "<=")
            (.literal (some b))) s
        = some (.ok (.bool false), s)
      ∧ Interpreter.evaluate (fuel + 2)
          (.binary (.literal (some a)) (tokOf .greaterEqual ">=")
            (.literal (some b))) s
        = some (.ok (.bool false), s) := by
  intro a b s fuel h
  cases a <;> cases b <;>
    first
      | exact ⟨rfl, rfl, rfl, rfl⟩
      | (simp [Object.isNum] at h)

/-- Witness for the amended C6 at `(1, "a")`. -/
theorem C6_amended_mixed_comparison_false_witness :
    (((Object.num 1).isNum = true ∧ (Object.str "a").isNum = false) ∨
      ((Object.num 1).isNum = false ∧ (Object.str "a").isNum = true))
    ∧ (Interpreter.evaluate 2
          (.binary (.literal (some (.num 1))) (tokOf .greater ">")
            (.literal (some (.str "a")))) Interpreter.mkInterpreter
        = some (.ok (.bool false), Interpreter.mkInterpreter)) :=
  ⟨by decide,
    (C6_amended_mixed_comparison_false (.num 1) (.str "a")
      Interpreter.mkInterpreter 0 (by decide)).2.1⟩

/-- Claim C7, counterexample: on the source `#@` — two faulty
characters — `tokenize` returns after the FIRST one with that single
diagnostic; no diagnostic for the second character exists anywhere in
the result, and scanning did not continue. -/
theorem C7_two_faulty_chars_single_error :
    Scanner.tokenize "#@"
      = some (.error (.error 1 "Unexpected Character.")) := rfl

/-- Claim C7, amended: the scanner records the first malformed token's
error with its line and `tokenize` returns that failure immediately —
whatever source text follows the faulty character is never scanned. -/
theorem C7_amended_first_error_stops_scan :
    ∀ (rest : List Char),
      Scanner.tokenize (String.mk ('#' :: rest))
        = some (.error (.error 1 "Unexpected Character.")) := by
  intro rest
  rfl

/-- Claim C8, counterexample: parsing `var ; var x ;` — a malformed
declaration followed by a well-formed one — yields only the first error;
the later declaration is not parsed into a statement list. -/
theorem C8_first_error_aborts_parse :
    (Parser.parse (c8Tokens [tokOf .varKw "var", identTokL "x",
        tokOf .semicolon ";"])).map Prod.fst
      = some (.error (.parseError (tokOf .semicolon ";")
          "Expect variable name.")) := rfl

/-- Claim C8, amended: on a declaration error the parser synchronizes
and records `had_error`, but `parse` propagates that first error
immediately (the `?` operator): for every continuation of the token
stream, the result is the same first error and no later declaration is
parsed. -/
theorem C8_amended_first_error_propagates :
    ∀ (rest : List Token),
      (∀ fuel : Nat,
        (Parser.parseFueled (fuel + 8) (Parser.mkParser (c8Tokens rest))).map
            Prod.fst
          = some (.error (.parseError (tokOf .semicolon ";")
              "Expect variable name.")))
      ∧ (Parser.parse (c8Tokens rest)).map Prod.fst
          = some (.error (.parseError (tokOf .semicolon ";")
              "Expect variable name.")) := by
  intro rest
  have base : ∀ fuel : Nat,
      (Parser.parseFueled (fuel + 8) (Parser.mkParser (c8Tokens rest))).map
          Prod.fst
        = some (.error (.parseError (tokOf .semicolon ";")
            "Expect variable name.")) := by
    intro fuel
    cases rest with
    | nil => rfl
    | cons t rest' =>
      obtain ⟨tt, lex, lit, line⟩ := t
      cases tt <;> rfl
  refine ⟨base, ?_⟩
  have hlen : ((c8Tokens rest).length + 2) * 32
      = (((c8Tokens rest).length + 2) * 32 - 8) + 8 := by omega
  show (Parser.parseFueled (((c8Tokens rest).length + 2) * 32)
      (Parser.mkParser (c8Tokens rest))).map Prod.fst = _
  rw [hlen]
  exact base _

set_option maxHeartbeats 4000000 in
/-- Claim C9: on the source `/*` — a `/*` with no closing `*/` — the
scanner's comment loop runs `advance` past the end of input, whose
`unwrap` panics (`none` in the model) instead of terminating with a
scanner error; and the "terminated" comment in `/*a/ */x` is skipped
only up to `a/` (the loop exits as soon as the NEXT character is `/`),
so `*`, `/` and `x` leak out as tokens instead of skipping exactly to
the first `*/`. -/
theorem C9_unterminated_block_comment_panics :
    Scanner.tokenize "/*" = none
    ∧ Scanner.tokenize "/*a/ */x"
        = some (.ok [tokOf .star "*", tokOf .slash "/", identTokL "x",
            tokOf .eof ""]) := by
  exact ⟨rfl, by decide⟩

/-- Claim C10: the resolver's two error channels.  (1) A variable
reference whose name is declared-but-undefined (`false`) in the
innermost scope makes the pass return that error at once with the state
unchanged — the same result whatever statements follow, so nothing later
is resolved and no further distances are recorded.  The other checks
only set `had_error` and return `Ok`, letting the pass continue:
(2) duplicate declaration in a scope, (3) top-level `return`,
(4) `return` with a value inside an initializer, (5) `this` outside a
class, (6) `super` outside a class, (7) a class inheriting from
itself. -/
theorem C10_resolver_error_channels :
    (∀ (fuel i : Nat) (name : String) (sc : List (String × Bool))
       (rs : List (List (String × Bool))) (he : Bool) (cf : FunctionType)
       (cc : ClassType) (loc : List (Nat × Nat)) (l2 : List Stmt),
       alistGet name sc = some false →
       Resolver.resolveStmts (fuel + 3)
           (Stmt.expression (Expr.variable_ i (identTokL name)) :: l2)
           ⟨sc :: rs, he, cf, cc, loc⟩
         = some (.error (.runtimeError (identTokL name)
             "Can't read local variable in it's own initializer"),
             ⟨sc :: rs, he, cf, cc, loc⟩))
    ∧ (∀ (fuel : Nat) (b : Bool) (sc' : List (String × Bool))
         (rs : List (List (String × Bool))) (he : Bool) (cf : FunctionType)
         (cc : ClassType) (loc : List (Nat × Nat)),
         Resolver.resolveStmt (fuel + 1) (.var (identTokL "a") none)
             ⟨(("a", b) :: sc') :: rs, he, cf, cc, loc⟩
           = some (.ok (), ⟨(("a", true) :: sc') :: rs, true, cf, cc, loc⟩))
    ∧ (∀ (fuel : Nat) (scopes : List (List (String × Bool))) (he : Bool)
         (cc : ClassType) (loc : List (Nat × Nat)),
         Resolver.resolveStmt (fuel + 1)
             (.return_ (tokOf .returnKw "return") none)
             ⟨scopes, he, .none_, cc, loc⟩
           = some (.ok (), ⟨scopes, true, .none_, cc, loc⟩))
    ∧ (∀ (fuel : Nat) (scopes : List (List (String × Bool))) (he : Bool)
         (cc : ClassType) (loc : List (Nat × Nat)),
         Resolver.resolveStmt (fuel + 2)
             (.return_ (tokOf .returnKw "return")
               (some (.literal (some .nil))))
             ⟨scopes, he, .initializer, cc, loc⟩
           = some (.ok (), ⟨scopes, true, .initializer, cc, loc⟩))
    ∧ (∀ (fuel i : Nat) (he : Bool) (cf : FunctionType)
         (loc : List (Nat × Nat)),
         Resolver.resolveExpr (fuel + 1) (.this_ i (tokOf .thisKw "this"))
             ⟨[], he, cf, .none_, loc⟩
           = some (.ok (), ⟨[], true, cf, .none_, loc⟩))
    ∧ (∀ (fuel i : Nat) (he : Bool) (cf : FunctionType)
         (loc : List (Nat × Nat)),
         Resolver.resolveExpr (fuel + 1)
             (.super_ i (tokOf .superKw "super") (identTokL "m"))
             ⟨[], he, cf, .none_, loc⟩
           = some (.ok (), ⟨[], true, cf, .none_, loc⟩))
    ∧ (∀ (fuel i : Nat) (he : Bool) (cf : FunctionType) (cc : ClassType)
         (loc : List (Nat × Nat)),
         Resolver.resolveStmt (fuel + 2)
             (.class_ (identTokL "A") (some (.variable_ i (identTokL "A"))) [])
             ⟨[], he, cf, cc, loc⟩
           = some (.ok (), ⟨[], true, cf, cc, loc⟩)) := by
  refine ⟨?_, fun _ _ _ _ _ _ _ _ => rfl, fun _ _ _ _ _ => rfl,
    fun _ _ _ _ _ => rfl, fun _ _ _ _ _ => rfl, fun _ _ _ _ _ => rfl,
    fun _ _ _ _ _ _ => rfl⟩
  intro fuel i name sc rs he cf cc loc l2 hf
  have hstmt : Resolver.resolveStmt (fuel + 2)
        (Stmt.expression (Expr.variable_ i (identTokL name)))
        ⟨sc :: rs, he, cf, cc, loc⟩
      = some (.error (.runtimeError (identTokL name)
          "Can't read local variable in it's own initializer"),
          ⟨sc :: rs, he, cf, cc, loc⟩) :=
    resolveExpr_var_in_own_init fuel i name sc rs he cf cc loc hf
  have h2 : Resolver.resolveStmts (fuel + 3)
        (Stmt.expression (Expr.variable_ i (identTokL name)) :: l2)
        ⟨sc :: rs, he, cf, cc, loc⟩
      = LoxM.bindF
          (Resolver.resolveStmt (fuel + 2)
            (Stmt.expression (Expr.variable_ i (identTokL name))))
          (fun _ => Resolver.resolveStmts (fuel + 2) l2)
          ⟨sc :: rs, he, cf, cc, loc⟩ := rfl
  rw [h2]
  exact LoxM.bindF_error _ _ _ _ _ hstmt

/-- Witness for C10 at a concrete scope stack and statement list. -/
theorem C10_resolver_error_channels_witness :
    alistGet "x" [("x", false)] = some false
    ∧ Resolver.resolveStmts 3
        [Stmt.expression (Expr.variable_ 0 (identTokL "x"))]
        ⟨[[("x", false)]], false, .none_, .none_, []⟩
      = some (.error (.runtimeError (identTokL "x")
          "Can't read local variable in it's own initializer"),
          ⟨[[("x", false)]], false, .none_, .none_, []⟩) :=
  ⟨by decide,
    C10_resolver_error_channels.1 0 0 "x" [("x", false)] [] false
      .none_ .none_ [] [] (by decide)⟩

end Rawwr
